import Mathlib

/-!
Verification of the bevy_ggrs rollback-netcode session engine against its
specification. The repository's `src/` holds the two box_game examples
(`box_game_p2p.rs`, `box_game_spectator.rs`); the engine components they
exercise (sync layer, input queues, sessions, peer protocol) live outside
`src/`, so they are modelled here from the specification's words, while the
example code (configuration constants, the player-registration loops, the
stats/event-draining systems) is embedded from the source directly.
-/

/-! ## Forward simulation and rollback resimulation (Sync Layer) -/

/-- Modelled from the spec: the caller's deterministic step function applied
frame by frame ("the caller's step function must be a pure function of
(state, inputs)"). `simulate step inputs s0 n` is the state after the
original uninterrupted forward simulation of frames `0..n-1`, where
`inputs f` is the (confirmed) input used to advance frame `f`. The sync
layer driving this loop is not in `src/`; only the registered rollback
schedule (`with_rollback_schedule`, box_game_p2p.rs lines 72-79) appears
there, abstracted here as `step`. -/
def simulate {σ ι : Type} (step : σ → ι → σ) (inputs : Nat → ι) (s0 : σ) : Nat → σ
  | 0 => s0
  | n + 1 => step (simulate step inputs s0 n) (inputs n)

/-- Modelled from the spec: "Resimulate frame by frame from `rollback_frame`
to the current frame, re-invoking the caller's deterministic step function
with the now-correct inputs". `resimulateFrom step inputs snap k m` restores
the snapshot `snap` taken at frame `k` and re-runs `m` frames `k..k+m-1`. -/
def resimulateFrom {σ ι : Type} (step : σ → ι → σ) (inputs : Nat → ι) (snap : σ) (k : Nat) : Nat → σ
  | 0 => snap
  | m + 1 => step (resimulateFrom step inputs snap k m) (inputs (k + m))

/-- Embedded from the example's registered rollback component `Transform`
(box_game_p2p.rs line 68 registers it for rollback); modelled as an integer
translation, the part of the component the rollback systems mutate. -/
structure Transform where
  x : Int
  y : Int
  z : Int
  deriving DecidableEq

/-- Embedded from the example's registered rollback component `Velocity`
(box_game_p2p.rs line 69). -/
structure Velocity where
  vx : Int
  vy : Int
  vz : Int
  deriving DecidableEq

/-- Embedded from the example's registered rollback resource `FrameCount`
(box_game_p2p.rs lines 70 and 98: inserted as `FrameCount { frame: 0 }`). -/
structure FrameCount where
  frame : Nat
  deriving DecidableEq

/-- Modelled from the spec: "all rollback-registered simulation state
(components + resources)" — here the set the example registers: the
`Transform` components, the `Velocity` components and the `FrameCount`
resource. -/
structure RollbackState where
  transforms : List Transform
  velocities : List Velocity
  frameCount : FrameCount
  deriving DecidableEq

/-- Modelled from the spec: the world also holds state NOT registered for
rollback (the example's network-stats timer, box_game_p2p.rs line 100, is
explicitly "not part of the rollback schedule"); snapshot restore must leave
it untouched. -/
structure GameWorld where
  rollback : RollbackState
  unregistered : Nat
  deriving DecidableEq

def encodeTransform (t : Transform) : List Int := [t.x, t.y, t.z]

def encodeVelocity (v : Velocity) : List Int := [v.vx, v.vy, v.vz]

def encodeTransforms : List Transform → List Int
  | [] => []
  | t :: ts => encodeTransform t ++ encodeTransforms ts

def encodeVelocities : List Velocity → List Int
  | [] => []
  | v :: vs => encodeVelocity v ++ encodeVelocities vs

/-- Modelled from the spec: the "Snapshot codec: serialize/deserialize of the
registered rollback state (components + named resources) to an opaque byte
buffer". The buffer is a flat list of integers: a length-prefixed block of
transforms, a length-prefixed block of velocities, then the frame counter. -/
def encodeState (s : RollbackState) : List Int :=
  (Int.ofNat s.transforms.length) :: encodeTransforms s.transforms
    ++ (Int.ofNat s.velocities.length) :: encodeVelocities s.velocities
    ++ [Int.ofNat s.frameCount.frame]

def decodeTransforms : Nat → List Int → Option (List Transform × List Int)
  | 0, rest => some ([], rest)
  | n + 1, x :: y :: z :: rest =>
    match decodeTransforms n rest with
    | some (ts, r) => some (⟨x, y, z⟩ :: ts, r)
    | none => none
  | _ + 1, _ => none

def decodeVelocities : Nat → List Int → Option (List Velocity × List Int)
  | 0, rest => some ([], rest)
  | n + 1, x :: y :: z :: rest =>
    match decodeVelocities n rest with
    | some (vs, r) => some (⟨x, y, z⟩ :: vs, r)
    | none => none
  | _ + 1, _ => none

/-- Modelled from the spec: deserialization half of the snapshot codec; a
malformed buffer yields `none` rather than a corrupt state. -/
def decodeState (buf : List Int) : Option RollbackState :=
  match buf with
  | n :: rest =>
    match decodeTransforms n.toNat rest with
    | some (ts, m :: rest2) =>
      match decodeVelocities m.toNat rest2 with
      | some (vs, [f]) => some ⟨ts, vs, ⟨f.toNat⟩⟩
      | _ => none
    | _ => none
  | [] => none

/-- Modelled from the spec: "StateSnapshot: opaque serialized copy of all
rollback-registered simulation state" — taking a snapshot serializes exactly
the registered state. -/
def takeSnapshot (w : GameWorld) : List Int := encodeState w.rollback

/-- Modelled from the spec: restoring a snapshot deserializes the buffer and
overwrites the registered state, leaving unregistered state untouched. -/
def restoreSnapshot (buf : List Int) (w : GameWorld) : Option GameWorld :=
  (decodeState buf).map (fun r => { w with rollback := r })

/-- Embedded from the source: box_game_p2p.rs line 37 configures the P2P
example session with `.with_max_prediction_window(12)`. -/
def p2pMaxPredictionWindow : Nat := 12

/-- Embedded from the source: box_game_p2p.rs line 38 configures the P2P
example session with `.with_input_delay(2)`. -/
def p2pInputDelay : Nat := 2

/-- Modelled from the spec: the sync layer's frame bookkeeping — "the highest
frame simulated so far and the highest fully confirmed frame across all
players". The sync layer itself is not in `src/`. -/
structure SyncState where
  currentFrame : Nat
  lastConfirmedFrame : Nat
  deriving DecidableEq

/-- Modelled from the spec: the status `advance_frame` reports — either the
frame advanced or the call stalled on prediction-window exhaustion. -/
inductive FrameStatus where
  | advanced
  | stall
  deriving DecidableEq

/-- Modelled from the spec: "advance_frame() drives the Sync Layer one tick";
"Prediction-window exhaustion — recoverable: reported as a stall status from
advance_frame"; "advance_frame declines to progress past the prediction
window rather than blocking, returning a status the caller must observe". -/
def advanceFrame (w : Nat) (s : SyncState) : SyncState × FrameStatus :=
  if s.currentFrame + 1 - s.lastConfirmedFrame > w then (s, FrameStatus.stall)
  else ({ s with currentFrame := s.currentFrame + 1 }, FrameStatus.advanced)

/-- Modelled from the spec: confirmations arriving from remote peers raise
the last fully confirmed frame; a frame is only confirmed once every
player's input for it is known, so confirmation never passes the locally
simulated frame. -/
def confirmFrame (s : SyncState) (k : Nat) : SyncState :=
  { s with lastConfirmedFrame := max s.lastConfirmedFrame (min k s.currentFrame) }

/-- Modelled from the spec: session states reachable from session start
(frame 0, nothing confirmed) by advancing frames and receiving
confirmations, under prediction window `w`. -/
inductive ReachableSync (w : Nat) : SyncState → Prop
  | init : ReachableSync w ⟨0, 0⟩
  | advance (s : SyncState) : ReachableSync w s → ReachableSync w (advanceFrame w s).1
  | confirm (s : SyncState) (k : Nat) : ReachableSync w s → ReachableSync w (confirmFrame s k)

/-- Modelled from the spec: one entry of an InputQueue, an "(input,
confirmed: bool)" pair. -/
structure QEntry (ι : Type) where
  input : ι
  confirmed : Bool
  deriving DecidableEq

/-- Modelled from the spec: the per-player InputQueue, an "ordered,
frame-indexed sequence of (input, confirmed) pairs". `firstFrame` is the
queue's earliest retained frame and `entries` holds the consecutive frames
starting there. `base` is the caller-supplied default input until confirmed
history is discarded, after which it is the last discarded confirmed input
(the value prediction falls back to). The InputQueue implementation is not
in `src/`. -/
structure InputQueue (ι : Type) where
  firstFrame : Nat
  base : ι
  entries : List (QEntry ι)
  deriving DecidableEq

/-- Modelled from the spec: the most recent confirmed input in `l`, falling
back to `base` — the value "prediction-by-repetition" repeats forward. -/
def lastConfIn {ι : Type} (base : ι) (l : List (QEntry ι)) : ι :=
  l.foldl (fun acc e => if e.confirmed then e.input else acc) base

/-- Modelled from the spec: the invariant that predicted entries are "copies
of the last confirmed input (or a caller-default) when no real data has
arrived yet" — every unconfirmed entry equals the most recent confirmed
input before it, or the base value when none precedes it. -/
def predOK {ι : Type} [DecidableEq ι] (base : ι) : List (QEntry ι) → Bool
  | [] => true
  | e :: rest =>
    if e.confirmed then predOK e.input rest
    else decide (e.input = base) && predOK base rest

/-- Modelled from the spec: the frame one past the queue's latest entry. -/
def nextFrame {ι : Type} (q : InputQueue ι) : Nat := q.firstFrame + q.entries.length

/-- Modelled from the spec: the entry retained for frame `f`, when `f` is in
the queue's retained range. -/
def lookupFrame {ι : Type} (q : InputQueue ι) (f : Nat) : Option (QEntry ι) :=
  if f < q.firstFrame then none else q.entries[f - q.firstFrame]?

/-- Modelled from the spec: once a frame mid-queue is confirmed, later
still-unconfirmed entries are re-predicted by repetition of the most recent
confirmed value. -/
def repredict {ι : Type} (base : ι) : List (QEntry ι) → List (QEntry ι)
  | [] => []
  | e :: rest =>
    if e.confirmed then e :: repredict e.input rest
    else ⟨base, false⟩ :: repredict base rest

/-- Modelled from the spec: overwrite position `i` with the now-confirmed
input `inp` and re-predict the unconfirmed suffix. -/
def confirmAt {ι : Type} (inp : ι) : Nat → List (QEntry ι) → List (QEntry ι)
  | _, [] => []
  | 0, _ :: rest => ⟨inp, true⟩ :: repredict inp rest
  | i + 1, e :: rest => e :: confirmAt inp i rest

/-- Modelled from the spec: "add_remote_input(frame, input, confirmed)
inserts a remote player's input; if an existing predicted entry at that
frame differs in value from the newly confirmed one, the queue flags a
misprediction at that frame". A frame beyond the queue's end first extends
the queue with prediction-by-repetition copies; a frame already discarded or
already confirmed is dropped (a duplicate or stale packet). Returns the
updated queue and the misprediction flag. -/
def addRemoteInput {ι : Type} [DecidableEq ι] (q : InputQueue ι) (f : Nat) (inp : ι) :
    InputQueue ι × Bool :=
  if f < q.firstFrame then (q, false)
  else
    match lookupFrame q f with
    | some e =>
      if e.confirmed then (q, false)
      else ({ q with entries := confirmAt inp (f - q.firstFrame) q.entries },
        decide (e.input ≠ inp))
    | none =>
      ({ q with entries :=
          q.entries
            ++ List.replicate (f - nextFrame q) ⟨lastConfIn q.base q.entries, false⟩
            ++ [⟨inp, true⟩] }, false)

/-- Modelled from the spec: "add_local_input(frame, input) appends/overwrites
at `frame`, marking it confirmed" (immediately, for local inputs); a frame
beyond the queue's end first extends the queue with prediction copies. -/
def addLocalInput {ι : Type} [DecidableEq ι] (q : InputQueue ι) (f : Nat) (inp : ι) :
    InputQueue ι :=
  if f < q.firstFrame then q
  else
    match lookupFrame q f with
    | some _ => { q with entries := confirmAt inp (f - q.firstFrame) q.entries }
    | none =>
      { q with entries :=
          q.entries
            ++ List.replicate (f - nextFrame q) ⟨lastConfIn q.base q.entries, false⟩
            ++ [⟨inp, true⟩] }

/-- Modelled from the spec: "Queue retains history back to
max(0, last_confirmed_frame − prediction_window); older entries are
discarded". `discardBefore q g` drops every entry at a frame below `g`,
remembering the last confirmed input among the discarded entries as the new
prediction base. -/
def discardBefore {ι : Type} (q : InputQueue ι) (g : Nat) : InputQueue ι :=
  if g ≤ q.firstFrame then q
  else
    { firstFrame := q.firstFrame + min (g - q.firstFrame) q.entries.length,
      base := lastConfIn q.base (q.entries.take (g - q.firstFrame)),
      entries := q.entries.drop (g - q.firstFrame) }

/-- Modelled from the spec: "input_for_frame(frame) returns the best-known
value: confirmed if present, else the most recent confirmed input repeated
forward (prediction-by-repetition), else a caller-supplied default". The
stored entry is returned when the frame is retained; a frame past the
queue's end predicts by repeating the most recent confirmed value. -/
def inputForFrame {ι : Type} (q : InputQueue ι) (f : Nat) : ι :=
  match lookupFrame q f with
  | some e => e.input
  | none => lastConfIn q.base q.entries

/-- Stated from the spec's words for C3: the confirmed input at frame `f`,
when one is present. -/
def confirmedAt {ι : Type} (q : InputQueue ι) (f : Nat) : Option ι :=
  match lookupFrame q f with
  | some e => if e.confirmed then some e.input else none
  | none => none

/-- Stated from the spec's words for C3: the most recent confirmed input at
some retained frame g < f, when one exists. -/
def lastConfirmedBefore {ι : Type} (q : InputQueue ι) (f : Nat) : Option ι :=
  (q.entries.take (f - q.firstFrame)).foldl
    (fun acc e => if e.confirmed then some e.input else acc) none

/-- Modelled from the spec: the full queue invariant — predicted entries are
prediction-by-repetition copies. -/
def queueOK {ι : Type} [DecidableEq ι] (q : InputQueue ι) : Prop :=
  predOK q.base q.entries = true

/-- Modelled from the spec: "queue never contains a gap — every frame from
the queue's earliest retained frame to its latest has an entry". -/
def noGap {ι : Type} (q : InputQueue ι) : Prop :=
  ∀ f : Nat, (lookupFrame q f).isSome ↔ (q.firstFrame ≤ f ∧ f < nextFrame q)

/-- Sample concrete queue used by the input-queue witnesses: default input 7,
frame 0 confirmed as 3, frame 1 predicted by repetition. -/
def sampleQueue : InputQueue Nat := ⟨0, 7, [⟨3, true⟩, ⟨3, false⟩]⟩

instance {ι : Type} [DecidableEq ι] (q : InputQueue ι) : Decidable (queueOK q) :=
  inferInstanceAs (Decidable (predOK q.base q.entries = true))

/-! ## Network stats, peers, sessions and builders -/

/-- Modelled from the spec: per-peer NetworkStats — "round-trip time
estimate, jitter, send/receive frame advantage, local/remote frames-behind
count". -/
structure NetworkStats where
  ping : Nat
  jitter : Nat
  localFramesBehind : Int
  remoteFramesBehind : Int
  deriving DecidableEq

/-- Modelled from the spec: a participant's role, "role ∈ {Local,
Remote(address), Spectator(address)}". -/
inductive PlayerKind where
  | localPlayer
  | remotePlayer
  | spectator
  deriving DecidableEq

/-- Modelled from the spec: per-peer connection lifecycle,
"Synchronizing → Running → Disconnected". -/
inductive ConnectionStatus where
  | synchronizing
  | running
  | disconnected
  deriving DecidableEq

/-- Modelled from the spec: what the session records per registered
participant. -/
structure PlayerInfo where
  kind : PlayerKind
  status : ConnectionStatus
  stats : NetworkStats
  deriving DecidableEq

/-- Modelled from the spec: "Stats query on unknown/disconnected handle —
returns a distinct not-connected error, not a crash". -/
inductive SessionError where
  | notConnected
  deriving DecidableEq

/-- Modelled from the spec: the P2P session's participants, indexed by
player handle. -/
structure P2PSessionModel where
  players : List PlayerInfo

/-- Modelled from the spec: "network_stats(handle) (returns the latest
NetworkStats or an error if the handle is not connected)". The session is
not in src/; its caller print_network_stats_system (box_game_p2p.rs lines
122-143) only observes the Ok case. -/
def networkStats (s : P2PSessionModel) (h : Nat) : Except SessionError NetworkStats :=
  match s.players[h]? with
  | none => Except.error SessionError.notConnected
  | some p =>
    if p.kind = PlayerKind.remotePlayer ∧ p.status = ConnectionStatus.running
    then Except.ok p.stats
    else Except.error SessionError.notConnected

/-- Modelled from the spec: the per-peer handshake state machine
"Initial → SyncRequestSent → Synchronizing(retries) → Running →
Disconnected", collapsed to its retry-counting synchronizing stage. -/
inductive PeerState where
  | syncing (retries : Nat)
  | running
  | disconnected
  deriving DecidableEq

/-- Modelled from the spec: one peer together with the number of
disconnection events the session has emitted for it. -/
structure PeerSync where
  state : PeerState
  disconnectEvents : Nat
  deriving DecidableEq

/-- Modelled from the spec: "message loss triggers retry with bounded
attempts, exceeding the bound transitions to Disconnected and raises a
disconnection event to the session" — one handshake attempt that received
no reply. A peer already disconnected (or running) is left unchanged, so no
second event can ever be emitted. -/
def onSyncTimeout (maxRetries : Nat) (p : PeerSync) : PeerSync :=
  match p.state with
  | PeerState.syncing r =>
    if r + 1 < maxRetries then { p with state := PeerState.syncing (r + 1) }
    else { state := PeerState.disconnected, disconnectEvents := p.disconnectEvents + 1 }
  | _ => p

/-- Modelled from the spec: the peer after `n` handshake attempts with no
reply, starting from the initial handshake state. -/
def runTimeouts (maxRetries : Nat) : Nat → PeerSync
  | 0 => { state := PeerState.syncing 0, disconnectEvents := 0 }
  | n + 1 => onSyncTimeout maxRetries (runTimeouts maxRetries n)

/-- Modelled from the spec: the spectator session, which "consumes an
authoritative, already-confirmed input stream relayed by the host rather
than performing prediction". `nextFrame` is the next frame to consume;
`received` the frames the host has delivered so far. -/
structure SpectatorModel (ι : Type) where
  nextFrame : Nat
  received : List (Nat × ι)

/-- Modelled from the spec: one spectator tick — the next frame is consumed
only when the host has delivered it; "on gap or stall (host not sending
fast enough) it may intentionally fall behind real time rather than
predict". -/
def spectatorStep {ι : Type} (s : SpectatorModel ι) : SpectatorModel ι × FrameStatus :=
  match s.received.lookup s.nextFrame with
  | some _ => ({ s with nextFrame := s.nextFrame + 1 }, FrameStatus.advanced)
  | none => (s, FrameStatus.stall)

/-- Modelled from the spec: `n` consecutive spectator ticks. -/
def spectatorRun {ι : Type} (s : SpectatorModel ι) : Nat → SpectatorModel ι
  | 0 => s
  | n + 1 => (spectatorStep (spectatorRun s n)).1

/-- Modelled from the spec: the host relay delivering one frame's input to
the spectator. -/
def deliverFrame {ι : Type} (s : SpectatorModel ι) (f : Nat) (inp : ι) : SpectatorModel ι :=
  { s with received := (f, inp) :: s.received }

/-- Embedded from the source: the participant roles the examples pass to
add_player — PlayerType::Local, PlayerType::Remote(addr),
PlayerType::Spectator(addr) (box_game_p2p.rs lines 44-54). Socket addresses
are abstracted to naturals. -/
inductive PlayerType where
  | Local
  | Remote (addr : Nat)
  | Spectator (addr : Nat)
  deriving DecidableEq

/-- Modelled from the spec: the configuration errors "invalid player count,
duplicate handle, zero players — reported synchronously at session build
time, fatal to construction". -/
inductive BuildError where
  | invalidHandle
  | duplicateHandle
  | invalidPlayerCount
  deriving DecidableEq

/-- Modelled from the spec: the session builder's accumulated configuration
— "number of players, list of (handle, role, address) tuples, max
prediction window, local input delay". `addedPlayers` keeps (handle, role)
in registration order. -/
structure SessionBuilder where
  numPlayers : Nat
  addedPlayers : List (Nat × PlayerType)
  maxPrediction : Nat
  inputDelay : Nat
  deriving DecidableEq

/-- Modelled from the spec: add_player validates the handle against the
configured player count and rejects duplicates; the examples propagate its
error with `?`, aborting construction (box_game_p2p.rs lines 44-54). A
player handle must lie below num_players, a spectator handle at or above
it. -/
def addPlayer (b : SessionBuilder) (ptype : PlayerType) (handle : Nat) :
    Except BuildError SessionBuilder :=
  if (b.addedPlayers.map Prod.fst).contains handle then
    Except.error BuildError.duplicateHandle
  else
    match ptype with
    | PlayerType.Local =>
      if handle < b.numPlayers
      then Except.ok { b with addedPlayers := b.addedPlayers ++ [(handle, ptype)] }
      else Except.error BuildError.invalidHandle
    | PlayerType.Remote _ =>
      if handle < b.numPlayers
      then Except.ok { b with addedPlayers := b.addedPlayers ++ [(handle, ptype)] }
      else Except.error BuildError.invalidHandle
    | PlayerType.Spectator _ =>
      if b.numPlayers ≤ handle
      then Except.ok { b with addedPlayers := b.addedPlayers ++ [(handle, ptype)] }
      else Except.error BuildError.invalidHandle

/-- Modelled from the spec: the initial session view of one registered
role — every peer starts in the Synchronizing stage of the lifecycle. -/
def playerInfoOf (t : PlayerType) : PlayerInfo :=
  match t with
  | PlayerType.Local => ⟨PlayerKind.localPlayer, ConnectionStatus.synchronizing, ⟨0, 0, 0, 0⟩⟩
  | PlayerType.Remote _ => ⟨PlayerKind.remotePlayer, ConnectionStatus.synchronizing, ⟨0, 0, 0, 0⟩⟩
  | PlayerType.Spectator _ => ⟨PlayerKind.spectator, ConnectionStatus.synchronizing, ⟨0, 0, 0, 0⟩⟩

/-- Helper: whether an Except value carries a success. -/
def exceptIsOk {ε α : Type} : Except ε α → Bool
  | Except.ok _ => true
  | Except.error _ => false

/-- Modelled from the spec: start_p2p_session validates the whole
configuration — zero players is fatal, and every player handle
0..num_players−1 must have been registered; only a valid configuration
yields a session value ("fatal to construction, never recovered
internally"). -/
def startP2PSession (b : SessionBuilder) : Except BuildError P2PSessionModel :=
  if b.numPlayers = 0 then Except.error BuildError.invalidPlayerCount
  else if (List.range b.numPlayers).all (fun i => (b.addedPlayers.map Prod.fst).contains i)
  then Except.ok { players := b.addedPlayers.map (fun pr => playerInfoOf pr.2) }
  else Except.error BuildError.invalidPlayerCount

/-- Embedded from the source: a command-line player entry — the string
"localhost" selects a local player, anything else parses as a remote socket
address (box_game_p2p.rs lines 41-50). -/
inductive PlayerArg where
  | localhost
  | remoteAddr (addr : Nat)
  deriving DecidableEq

/-- Embedded from the source: the role chosen for one command-line entry
(box_game_p2p.rs lines 42-49). -/
def playerTypeOf : PlayerArg → PlayerType
  | PlayerArg.localhost => PlayerType.Local
  | PlayerArg.remoteAddr a => PlayerType.Remote a

/-- Embedded from the source (box_game_p2p.rs lines 41-50): "for (i,
player_addr) in opt.players.iter().enumerate()" add a player with handle i,
propagating the first error. `i` carries the enumeration index. -/
def addPlayersFrom (b : SessionBuilder) (i : Nat) :
    List PlayerArg → Except BuildError SessionBuilder
  | [] => Except.ok b
  | p :: rest =>
    match addPlayer b (playerTypeOf p) i with
    | Except.ok b2 => addPlayersFrom b2 (i + 1) rest
    | Except.error e => Except.error e

/-- Embedded from the source (box_game_p2p.rs lines 53-55): "for (i,
spec_addr) in opt.spectators.iter().enumerate()" add a spectator with
handle num_players + i. -/
def addSpectatorsFrom (b : SessionBuilder) (n i : Nat) :
    List Nat → Except BuildError SessionBuilder
  | [] => Except.ok b
  | a :: rest =>
    match addPlayer b (PlayerType.Spectator a) (n + i) with
    | Except.ok b2 => addSpectatorsFrom b2 n (i + 1) rest
    | Except.error e => Except.error e

/-- Embedded from the source (box_game_p2p.rs lines 30-55): the P2P
example's session construction — num_players is the length of the players
list, the builder is configured with prediction window 12 and input delay
2, players get handles 0..n−1 in list order, the i-th spectator gets handle
num_players + i. -/
def buildExampleSession (players : List PlayerArg) (spectators : List Nat) :
    Except BuildError SessionBuilder :=
  match addPlayersFrom
      { numPlayers := players.length, addedPlayers := [],
        maxPrediction := p2pMaxPredictionWindow, inputDelay := p2pInputDelay }
      0 players with
  | Except.ok b2 => addSpectatorsFrom b2 players.length 0 spectators
  | Except.error e => Except.error e

/-! ## Theorems -/

theorem resimulateFrom_simulate {σ ι : Type} (step : σ → ι → σ) (inputs : Nat → ι)
    (s0 : σ) (k : Nat) : ∀ m : Nat,
    resimulateFrom step inputs (simulate step inputs s0 k) k m = simulate step inputs s0 (k + m)
  | 0 => rfl
  | m + 1 => by
    rw [resimulateFrom, resimulateFrom_simulate step inputs s0 k m]
    rfl

/-! ## Rollback-registered state and snapshots -/

theorem intToNat_ofNat (n : Nat) : (Int.ofNat n).toNat = n := rfl

theorem decodeTransforms_encodeTransforms (ts : List Transform) (rest : List Int) :
    decodeTransforms ts.length (encodeTransforms ts ++ rest) = some (ts, rest) := by
  induction ts with
  | nil => rfl
  | cons t ts ih =>
    cases t
    simp only [encodeTransforms, encodeTransform, List.length_cons, List.cons_append,
      List.nil_append, List.append_eq, decodeTransforms, List.append_assoc, ih]

theorem decodeVelocities_encodeVelocities (vs : List Velocity) (rest : List Int) :
    decodeVelocities vs.length (encodeVelocities vs ++ rest) = some (vs, rest) := by
  induction vs with
  | nil => rfl
  | cons v vs ih =>
    cases v
    simp only [encodeVelocities, encodeVelocity, List.length_cons, List.cons_append,
      List.nil_append, List.append_eq, decodeVelocities, List.append_assoc, ih]

theorem decodeState_encodeState (s : RollbackState) : decodeState (encodeState s) = some s := by
  obtain ⟨ts, vs, ⟨f⟩⟩ := s
  simp only [encodeState, decodeState, List.cons_append, List.append_assoc,
    List.nil_append, List.append_eq, intToNat_ofNat,
    decodeTransforms_encodeTransforms, decodeVelocities_encodeVelocities]

/-- C1: For every sequence of fully confirmed inputs and every confirmed
frame k earlier than the current frame N, restoring the snapshot taken at k
and re-running the caller's deterministic step function (the registered
rollback schedule) with the same inputs for frames k+1..N produces a state
at frame N identical to the state produced by the original uninterrupted
forward simulation. -/
theorem rollback_resimulation_matches_forward {σ ι : Type} (step : σ → ι → σ)
    (inputs : Nat → ι) (s0 : σ) (k N : Nat) (hkN : k ≤ N) :
    resimulateFrom step inputs (simulate step inputs s0 k) k (N - k)
      = simulate step inputs s0 N := by
  rw [resimulateFrom_simulate, Nat.add_sub_cancel' hkN]

/-- Witness for C1: concrete accumulating step function, snapshot taken at
confirmed frame 2, resimulated to current frame 5. -/
theorem rollback_resimulation_matches_forward_witness :
    2 ≤ 5 ∧
      resimulateFrom (fun s i => s + i) (fun n => n + 1)
          (simulate (fun s i => s + i) (fun n => n + 1) 0 2) 2 (5 - 2)
        = simulate (fun s i => s + i) (fun n => n + 1) 0 5 :=
  ⟨by decide,
    rollback_resimulation_matches_forward (fun s i => s + i) (fun n => n + 1) 0 2 5 (by decide)⟩

/-- C5: Taking a StateSnapshot of the registered rollback state (components
and resources) at frame N and immediately restoring it, with no intervening
input change, yields a state bit-identical to the state that existed before
the snapshot/restore pair: snapshot followed by restore is the identity on
the registered state, and untouched on the unregistered remainder. -/
theorem snapshot_restore_roundtrip (w : GameWorld) :
    restoreSnapshot (takeSnapshot w) w = some w := by
  simp only [restoreSnapshot, takeSnapshot, decodeState_encodeState, Option.map_some']

/-! ## Session frame advancement and the prediction window -/

/-- C2: For every reachable session state, current_frame minus
last_confirmed_frame is at most the configured max prediction window (12 in
the P2P example); a call to advance_frame that would exceed this bound
returns a stall status and does not increment current_frame. -/
theorem prediction_window_bound (w : Nat) (s : SyncState) (h : ReachableSync w s) :
    s.currentFrame - s.lastConfirmedFrame ≤ w ∧
      (s.currentFrame + 1 - s.lastConfirmedFrame > w →
        (advanceFrame w s).2 = FrameStatus.stall ∧
          (advanceFrame w s).1.currentFrame = s.currentFrame) ∧
      p2pMaxPredictionWindow = 12 := by
  refine ⟨?_, ?_, rfl⟩
  · induction h with
    | init => simp
    | advance s hs ih =>
      by_cases hc : s.currentFrame + 1 - s.lastConfirmedFrame > w
      · simpa [advanceFrame, hc] using ih
      · simp only [advanceFrame, hc, if_false, ite_false]
        simp only [not_lt] at hc
        omega
    | confirm s k hs ih =>
      simp only [confirmFrame]
      omega
  · intro hgt
    simp [advanceFrame, hgt]

/-- Witness for C2 at prediction window 0 and the initial session state:
the first advance already stalls. -/
theorem prediction_window_bound_witness :
    (SyncState.mk 0 0).currentFrame - (SyncState.mk 0 0).lastConfirmedFrame ≤ 0 ∧
      ((SyncState.mk 0 0).currentFrame + 1 - (SyncState.mk 0 0).lastConfirmedFrame > 0 →
        (advanceFrame 0 (SyncState.mk 0 0)).2 = FrameStatus.stall ∧
          (advanceFrame 0 (SyncState.mk 0 0)).1.currentFrame
            = (SyncState.mk 0 0).currentFrame) ∧
      p2pMaxPredictionWindow = 12 :=
  prediction_window_bound 0 (SyncState.mk 0 0) ReachableSync.init

/-! ## Input queues -/

theorem lastConfIn_cons {ι : Type} (base : ι) (e : QEntry ι) (l : List (QEntry ι)) :
    lastConfIn base (e :: l) = lastConfIn (if e.confirmed then e.input else base) l := rfl

theorem lastConfIn_append {ι : Type} (base : ι) (l1 l2 : List (QEntry ι)) :
    lastConfIn base (l1 ++ l2) = lastConfIn (lastConfIn base l1) l2 :=
  List.foldl_append _ _ _ _

theorem lastConfIn_replicate {ι : Type} (b v : ι) (n : Nat) :
    lastConfIn b (List.replicate n ⟨v, false⟩) = b := by
  induction n with
  | zero => rfl
  | succ n ih => simp only [List.replicate, lastConfIn_cons, if_neg Bool.false_ne_true, ih]

theorem predOK_append {ι : Type} [DecidableEq ι] (l1 l2 : List (QEntry ι)) :
    ∀ base : ι,
      predOK base (l1 ++ l2) = (predOK base l1 && predOK (lastConfIn base l1) l2) := by
  induction l1 with
  | nil => intro base; simp [predOK, lastConfIn]
  | cons e l1 ih =>
    intro base
    by_cases hc : e.confirmed
    · simp [predOK, hc, lastConfIn_cons, ih]
    · simp [predOK, hc, lastConfIn_cons, ih, Bool.and_assoc]

theorem predOK_replicate {ι : Type} [DecidableEq ι] (v : ι) (n : Nat) :
    predOK v (List.replicate n ⟨v, false⟩) = true := by
  induction n with
  | zero => rfl
  | succ n ih => simp [List.replicate, predOK, ih]

theorem predOK_repredict {ι : Type} [DecidableEq ι] (l : List (QEntry ι)) :
    ∀ base : ι, predOK base (repredict base l) = true := by
  induction l with
  | nil => intro base; rfl
  | cons e l ih =>
    intro base
    by_cases hc : e.confirmed
    · simp [repredict, hc, predOK, ih]
    · simp [repredict, hc, predOK, ih]

theorem predOK_confirmAt {ι : Type} [DecidableEq ι] (inp : ι) (l : List (QEntry ι)) :
    ∀ (i : Nat) (base : ι), predOK base l = true → predOK base (confirmAt inp i l) = true := by
  induction l with
  | nil => intro i base h; cases i <;> exact h
  | cons e l ih =>
    intro i base h
    match i with
    | 0 =>
      show predOK base (⟨inp, true⟩ :: repredict inp l) = true
      simp [predOK, predOK_repredict]
    | i + 1 =>
      show predOK base (e :: confirmAt inp i l) = true
      by_cases hc : e.confirmed
      · simp only [predOK] at h ⊢
        rw [if_pos hc] at h ⊢
        exact ih i e.input h
      · simp only [predOK] at h ⊢
        rw [if_neg hc] at h ⊢
        rw [Bool.and_eq_true] at h ⊢
        exact ⟨h.1, ih i base h.2⟩

theorem predOK_extend {ι : Type} [DecidableEq ι] (base inp : ι) (l : List (QEntry ι))
    (n : Nat) (h : predOK base l = true) :
    predOK base (l ++ List.replicate n ⟨lastConfIn base l, false⟩ ++ [⟨inp, true⟩]) = true := by
  rw [predOK_append, predOK_append, lastConfIn_append, lastConfIn_replicate]
  simp [h, predOK_replicate, predOK]

theorem noGap_always {ι : Type} (q : InputQueue ι) : noGap q := by
  intro f
  unfold lookupFrame nextFrame
  by_cases h : f < q.firstFrame
  · simp only [h, if_true, Option.isSome_none, Bool.false_eq_true, false_iff, not_and, not_lt]
    omega
  · simp only [h, if_false]
    rw [Option.isSome_iff_ne_none, ne_eq, List.getElem?_eq_none_iff]
    omega

theorem optFold_getD {ι : Type} (l : List (QEntry ι)) :
    ∀ (a : Option ι) (base : ι),
      (l.foldl (fun acc e => if e.confirmed then some e.input else acc) a).getD base
        = lastConfIn (a.getD base) l := by
  induction l with
  | nil => intro a base; rfl
  | cons e l ih =>
    intro a base
    rw [List.foldl_cons, lastConfIn_cons, ih]
    by_cases hc : e.confirmed
    · rw [if_pos hc, if_pos hc]
      rfl
    · rw [if_neg hc, if_neg hc]

theorem predOK_getElem {ι : Type} [DecidableEq ι] (l : List (QEntry ι)) :
    ∀ (i : Nat) (base : ι) (e : QEntry ι), predOK base l = true → l[i]? = some e →
      e.confirmed = false → e.input = lastConfIn base (l.take i) := by
  induction l with
  | nil => intro i base e _ hl _; simp at hl
  | cons a l ih =>
    intro i base e h hl hconf
    match i with
    | 0 =>
      simp only [List.getElem?_cons_zero, Option.some.injEq] at hl
      subst hl
      have hnc : ¬ a.confirmed = true := by simp [hconf]
      simp only [predOK] at h
      rw [if_neg hnc, Bool.and_eq_true, decide_eq_true_eq] at h
      simpa [lastConfIn] using h.1
    | i + 1 =>
      rw [List.getElem?_cons_succ] at hl
      rw [List.take_succ_cons, lastConfIn_cons]
      by_cases hc : a.confirmed
      · rw [if_pos hc]
        simp only [predOK] at h
        rw [if_pos hc] at h
        exact ih i a.input e h hl hconf
      · rw [if_neg hc]
        simp only [predOK] at h
        rw [if_neg hc, Bool.and_eq_true] at h
        exact ih i base e h.2 hl hconf

/-- C3: For every input queue and every frame f within the retained range,
input_for_frame(f) returns the confirmed input for f when one is present;
otherwise it returns the most recent confirmed input at some frame g < f
repeated forward; otherwise (no confirmed input exists at or before f) it
returns the caller-supplied default. -/
theorem input_for_frame_best_known {ι : Type} [DecidableEq ι] (q : InputQueue ι) (f : Nat)
    (hq : queueOK q) (hf : q.firstFrame ≤ f) :
    inputForFrame q f
      = (confirmedAt q f).getD ((lastConfirmedBefore q f).getD q.base) := by
  have hnl : ¬ f < q.firstFrame := Nat.not_lt.mpr hf
  simp only [inputForFrame, confirmedAt, lastConfirmedBefore, lookupFrame, hnl, ite_false,
    if_neg hnl]
  cases hE : q.entries[f - q.firstFrame]? with
  | none =>
    have hlen : q.entries.length ≤ f - q.firstFrame := List.getElem?_eq_none_iff.mp hE
    rw [List.take_of_length_le hlen, optFold_getD]
    rfl
  | some e =>
    by_cases hc : e.confirmed
    · simp [hc]
    · have hc2 : e.confirmed = false := Bool.eq_false_iff.mpr hc
      simp only [hc2, Bool.false_eq_true, ite_false, Option.getD_none]
      rw [optFold_getD]
      exact predOK_getElem q.entries (f - q.firstFrame) q.base e hq hE hc2

/-- Witness for C3 at the sample queue and frame 1 (a predicted frame). -/
theorem input_for_frame_best_known_witness :
    queueOK sampleQueue ∧ sampleQueue.firstFrame ≤ 1 ∧
      inputForFrame sampleQueue 1
        = (confirmedAt sampleQueue 1).getD
            ((lastConfirmedBefore sampleQueue 1).getD sampleQueue.base) :=
  ⟨by decide, by decide, input_for_frame_best_known sampleQueue 1 (by decide) (by decide)⟩

/-- C4: Every operation on an InputQueue (add_local_input, add_remote_input,
input_for_frame, history discard) preserves the invariant that the queue
contains an entry for every frame from its earliest retained frame to its
latest frame, with no gap; entries not yet confirmed hold a copy of the last
confirmed input or the caller default. (`inputForFrame` is a pure query in
this model, so it preserves both invariants by construction.) -/
theorem queue_ops_preserve_invariants {ι : Type} [DecidableEq ι] (q : InputQueue ι)
    (f g : Nat) (inp : ι) (hq : queueOK q) :
    (queueOK (addLocalInput q f inp) ∧ noGap (addLocalInput q f inp)) ∧
      (queueOK (addRemoteInput q f inp).1 ∧ noGap (addRemoteInput q f inp).1) ∧
      (queueOK (discardBefore q g) ∧ noGap (discardBefore q g)) := by
  refine ⟨⟨?_, noGap_always _⟩, ⟨?_, noGap_always _⟩, ⟨?_, noGap_always _⟩⟩
  · unfold addLocalInput
    split
    · exact hq
    · split
      · exact predOK_confirmAt inp q.entries (f - q.firstFrame) q.base hq
      · exact predOK_extend q.base inp q.entries (f - nextFrame q) hq
  · unfold addRemoteInput
    split
    · exact hq
    · split
      · split
        · exact hq
        · exact predOK_confirmAt inp q.entries (f - q.firstFrame) q.base hq
      · exact predOK_extend q.base inp q.entries (f - nextFrame q) hq
  · unfold discardBefore
    split
    · exact hq
    · have h2 := hq
      unfold queueOK at h2 ⊢
      rw [← List.take_append_drop (g - q.firstFrame) q.entries, predOK_append,
        Bool.and_eq_true] at h2
      exact h2.2

/-- Witness for C4 at the sample queue: a local add at frame 1, a remote add
at frame 1, and a discard of history before frame 1. -/
theorem queue_ops_preserve_invariants_witness :
    queueOK sampleQueue ∧
      ((queueOK (addLocalInput sampleQueue 1 4) ∧ noGap (addLocalInput sampleQueue 1 4)) ∧
        (queueOK (addRemoteInput sampleQueue 1 4).1 ∧ noGap (addRemoteInput sampleQueue 1 4).1) ∧
        (queueOK (discardBefore sampleQueue 1) ∧ noGap (discardBefore sampleQueue 1))) :=
  ⟨by decide, queue_ops_preserve_invariants sampleQueue 1 1 4 (by decide)⟩

/-- C6: For every player handle h that is unknown to the session or whose
peer is disconnected, network_stats(h) returns a distinct not-connected
error value (an Err result) rather than panicking or aborting (the function
is total); for connected remote handles it returns the latest
NetworkStats. -/
theorem network_stats_not_connected_error (s : P2PSessionModel) (h : Nat) (p : PlayerInfo) :
    (s.players[h]? = none → networkStats s h = Except.error SessionError.notConnected) ∧
      (s.players[h]? = some p → p.status = ConnectionStatus.disconnected →
        networkStats s h = Except.error SessionError.notConnected) ∧
      (s.players[h]? = some p → p.kind = PlayerKind.remotePlayer →
        p.status = ConnectionStatus.running →
        networkStats s h = Except.ok p.stats) := by
  refine ⟨?_, ?_, ?_⟩
  · intro hnone
    simp [networkStats, hnone]
  · intro hsome hdis
    simp only [networkStats, hsome]
    rw [if_neg]
    rintro ⟨-, hrun⟩
    rw [hdis] at hrun
    exact absurd hrun (by decide)
  · intro hsome hk hr
    simp only [networkStats, hsome]
    rw [if_pos ⟨hk, hr⟩]

theorem runTimeouts_eq (maxRetries : Nat) (hm : 1 ≤ maxRetries) : ∀ n : Nat,
    runTimeouts maxRetries n =
      if n < maxRetries then { state := PeerState.syncing n, disconnectEvents := 0 }
      else { state := PeerState.disconnected, disconnectEvents := 1 } := by
  intro n
  induction n with
  | zero => rw [if_pos (by omega : 0 < maxRetries)]; rfl
  | succ n ih =>
    rw [runTimeouts, ih]
    by_cases hn : n < maxRetries
    · rw [if_pos hn]
      simp only [onSyncTimeout]
    · rw [if_neg hn, if_neg (by omega : ¬ n + 1 < maxRetries)]
      rfl

/-- C7: For every peer whose handshake receives no reply for the bounded
number of retry attempts, the session transitions that peer to the
Disconnected state and the events() stream contains exactly one
disconnection event for that peer across the whole session — never zero and
never more than one (for any number m of further timeouts the count stays
at most one). -/
theorem handshake_timeout_one_disconnect_event (maxRetries n m : Nat)
    (hm : 1 ≤ maxRetries) (hn : maxRetries ≤ n) :
    (runTimeouts maxRetries n).state = PeerState.disconnected ∧
      (runTimeouts maxRetries n).disconnectEvents = 1 ∧
      (runTimeouts maxRetries m).disconnectEvents ≤ 1 := by
  rw [runTimeouts_eq maxRetries hm n, if_neg (by omega : ¬ n < maxRetries),
    runTimeouts_eq maxRetries hm m]
  refine ⟨rfl, rfl, ?_⟩
  by_cases hmm : m < maxRetries
  · rw [if_pos hmm]
    exact Nat.zero_le 1
  · rw [if_neg hmm]

/-- Witness for C7: retry bound 2 reached after 3 silent attempts; after 1
attempt no event has been emitted yet. -/
theorem handshake_timeout_one_disconnect_event_witness :
    1 ≤ 2 ∧ 2 ≤ 3 ∧
      ((runTimeouts 2 3).state = PeerState.disconnected ∧
        (runTimeouts 2 3).disconnectEvents = 1 ∧
        (runTimeouts 2 1).disconnectEvents ≤ 1) :=
  ⟨by decide, by decide, handshake_timeout_one_disconnect_event 2 3 1 (by decide) (by decide)⟩

theorem spectatorRun_received {ι : Type} (s : SpectatorModel ι) : ∀ n : Nat,
    (spectatorRun s n).received = s.received := by
  intro n
  induction n with
  | zero => rfl
  | succ n ih =>
    rw [spectatorRun]
    unfold spectatorStep
    split <;> exact ih

/-- C8: For every spectator session and every frame sequence with a missing
frame g (not yet delivered by the host), the spectator never simulates any
frame beyond g−1: repeated ticks never move the next frame past g, a tick
at g stalls in place, and once frame g arrives the next tick consumes it
and resumes in order at g+1; it never skips ahead of a gap. -/
theorem spectator_never_skips_gap {ι : Type} (s : SpectatorModel ι) (g n : Nat) (inp : ι)
    (hmiss : s.received.lookup g = (none : Option ι)) (hle : s.nextFrame ≤ g) :
    (spectatorRun s n).nextFrame ≤ g ∧
      ((spectatorRun s n).nextFrame = g →
        (spectatorStep (spectatorRun s n)).2 = FrameStatus.stall ∧
          (spectatorStep (spectatorRun s n)).1.nextFrame = g) ∧
      ((spectatorRun s n).nextFrame = g →
        (spectatorStep (deliverFrame (spectatorRun s n) g inp)).2 = FrameStatus.advanced ∧
          (spectatorStep (deliverFrame (spectatorRun s n) g inp)).1.nextFrame = g + 1) := by
  have hbound : ∀ m : Nat, (spectatorRun s m).nextFrame ≤ g := by
    intro m
    induction m with
    | zero => exact hle
    | succ m ih =>
      rw [spectatorRun]
      rcases Nat.lt_or_ge (spectatorRun s m).nextFrame g with hlt | hge
      · unfold spectatorStep
        split
        · exact hlt
        · exact ih
      · have heq : (spectatorRun s m).nextFrame = g := Nat.le_antisymm ih hge
        have hnone : (spectatorRun s m).received.lookup (spectatorRun s m).nextFrame
            = (none : Option ι) := by
          rw [spectatorRun_received, heq]
          exact hmiss
        unfold spectatorStep
        rw [hnone]
        exact ih
  refine ⟨hbound n, ?_, ?_⟩
  · intro heq
    have hnone : (spectatorRun s n).received.lookup (spectatorRun s n).nextFrame
        = (none : Option ι) := by
      rw [spectatorRun_received, heq]
      exact hmiss
    unfold spectatorStep
    rw [hnone]
    exact ⟨rfl, heq⟩
  · intro heq
    unfold spectatorStep deliverFrame
    simp only [heq, List.lookup_cons, beq_self_eq_true]
    exact ⟨trivial, trivial⟩

/-- Witness for C8: a spectator that has frame 0 but not frame 1, run three
ticks, then handed frame 1. -/
theorem spectator_never_skips_gap_witness :
    ([((0 : Nat), (5 : Nat))].lookup 1 = (none : Option Nat)) ∧
      ((SpectatorModel.mk 0 [((0 : Nat), (5 : Nat))]).nextFrame ≤ 1) ∧
      ((spectatorRun (SpectatorModel.mk 0 [((0 : Nat), (5 : Nat))]) 3).nextFrame ≤ 1 ∧
        ((spectatorRun (SpectatorModel.mk 0 [((0 : Nat), (5 : Nat))]) 3).nextFrame = 1 →
          (spectatorStep (spectatorRun (SpectatorModel.mk 0 [((0 : Nat), (5 : Nat))]) 3)).2
              = FrameStatus.stall ∧
            (spectatorStep
                (spectatorRun (SpectatorModel.mk 0 [((0 : Nat), (5 : Nat))]) 3)).1.nextFrame
              = 1) ∧
        ((spectatorRun (SpectatorModel.mk 0 [((0 : Nat), (5 : Nat))]) 3).nextFrame = 1 →
          (spectatorStep (deliverFrame
              (spectatorRun (SpectatorModel.mk 0 [((0 : Nat), (5 : Nat))]) 3) 1 9)).2
              = FrameStatus.advanced ∧
            (spectatorStep (deliverFrame
                (spectatorRun (SpectatorModel.mk 0 [((0 : Nat), (5 : Nat))]) 3) 1 9)).1.nextFrame
              = 1 + 1)) :=
  ⟨by decide, by decide,
    spectator_never_skips_gap (SpectatorModel.mk 0 [((0 : Nat), (5 : Nat))]) 1 3 9
      (by decide) (by decide)⟩

/-- C9: For every invalid session configuration (zero players, an
out-of-range player count/handle, or a duplicate handle), session
construction fails synchronously at build time with a fatal error before
any session exists: add_player rejects duplicate handles, start_p2p_session
rejects zero players, and a session value is only ever produced from a
valid configuration, so the failure is never deferred to or recovered
during the running session. -/
theorem invalid_config_fails_at_build (b : SessionBuilder) (t : PlayerType) (h : Nat) :
    (b.numPlayers = 0 → startP2PSession b = Except.error BuildError.invalidPlayerCount) ∧
      ((b.addedPlayers.map Prod.fst).contains h = true →
        addPlayer b t h = Except.error BuildError.duplicateHandle) ∧
      (exceptIsOk (startP2PSession b) = true →
        b.numPlayers ≠ 0 ∧
          ((List.range b.numPlayers).all
            (fun i => (b.addedPlayers.map Prod.fst).contains i)) = true) := by
  refine ⟨?_, ?_, ?_⟩
  · intro h0
    simp [startP2PSession, h0]
  · intro hdup
    unfold addPlayer
    rw [if_pos hdup]
  · intro hok
    unfold startP2PSession at hok
    by_cases h0 : b.numPlayers = 0
    · rw [if_pos h0] at hok
      exact absurd hok (by decide)
    · refine ⟨h0, ?_⟩
      rw [if_neg h0] at hok
      by_cases hall : ((List.range b.numPlayers).all
          (fun i => (b.addedPlayers.map Prod.fst).contains i)) = true
      · exact hall
      · rw [if_neg hall] at hok
        exact absurd hok (by decide)

theorem addPlayersFrom_ok (rest : List PlayerArg) :
    ∀ (b : SessionBuilder) (i : Nat),
      b.addedPlayers.map Prod.fst = List.range i →
      i + rest.length = b.numPlayers →
      ∃ b2 : SessionBuilder, addPlayersFrom b i rest = Except.ok b2 ∧
        b2.addedPlayers.map Prod.fst = List.range b.numPlayers ∧
        b2.numPlayers = b.numPlayers := by
  induction rest with
  | nil =>
    intro b i hmap hlen
    simp only [List.length_nil, Nat.add_zero] at hlen
    exact ⟨b, rfl, hlen ▸ hmap, rfl⟩
  | cons p rest ih =>
    intro b i hmap hlen
    have hnc : ¬ ((b.addedPlayers.map Prod.fst).contains i = true) := by
      rw [hmap]
      simp [List.contains, List.elem_eq_mem, List.mem_range]
    have hlt : i < b.numPlayers := by
      simp only [List.length_cons] at hlen
      omega
    have haddp : addPlayer b (playerTypeOf p) i
        = Except.ok { b with addedPlayers := b.addedPlayers ++ [(i, playerTypeOf p)] } := by
      cases p <;> simp only [addPlayer, playerTypeOf, if_neg hnc, if_pos hlt]
    have hstep : addPlayersFrom b i (p :: rest)
        = addPlayersFrom
            { b with addedPlayers := b.addedPlayers ++ [(i, playerTypeOf p)] } (i + 1) rest := by
      have h0 : addPlayersFrom b i (p :: rest)
          = match addPlayer b (playerTypeOf p) i with
            | Except.ok b2 => addPlayersFrom b2 (i + 1) rest
            | Except.error e => Except.error e := rfl
      rw [h0, haddp]
    have hmap2 : ({ b with addedPlayers :=
          b.addedPlayers ++ [(i, playerTypeOf p)] }).addedPlayers.map Prod.fst
        = List.range (i + 1) := by
      simp [hmap, List.range_succ]
    have hlen2 : (i + 1) + rest.length
        = ({ b with addedPlayers := b.addedPlayers ++ [(i, playerTypeOf p)] }).numPlayers := by
      simp only [List.length_cons] at hlen
      simpa using by omega
    obtain ⟨b3, hrun, hm3, hn3⟩ :=
      ih { b with addedPlayers := b.addedPlayers ++ [(i, playerTypeOf p)] } (i + 1) hmap2 hlen2
    exact ⟨b3, hstep.trans hrun, hm3, hn3⟩

theorem addSpectatorsFrom_ok (rest : List Nat) :
    ∀ (b : SessionBuilder) (n i : Nat),
      b.addedPlayers.map Prod.fst = List.range (n + i) →
      b.numPlayers = n →
      ∃ b2 : SessionBuilder, addSpectatorsFrom b n i rest = Except.ok b2 ∧
        b2.addedPlayers.map Prod.fst = List.range (n + i + rest.length) ∧
        b2.numPlayers = n := by
  induction rest with
  | nil =>
    intro b n i hmap hn
    exact ⟨b, rfl, by simpa using hmap, hn⟩
  | cons a rest ih =>
    intro b n i hmap hn
    have hnc : ¬ ((b.addedPlayers.map Prod.fst).contains (n + i) = true) := by
      rw [hmap]
      simp [List.contains, List.elem_eq_mem, List.mem_range]
    have hge : b.numPlayers ≤ n + i := by omega
    have haddp : addPlayer b (PlayerType.Spectator a) (n + i)
        = Except.ok { b with addedPlayers :=
            b.addedPlayers ++ [(n + i, PlayerType.Spectator a)] } := by
      simp only [addPlayer, if_neg hnc, if_pos hge]
    have hstep : addSpectatorsFrom b n i (a :: rest)
        = addSpectatorsFrom { b with addedPlayers :=
            b.addedPlayers ++ [(n + i, PlayerType.Spectator a)] } n (i + 1) rest := by
      have h0 : addSpectatorsFrom b n i (a :: rest)
          = match addPlayer b (PlayerType.Spectator a) (n + i) with
            | Except.ok b2 => addSpectatorsFrom b2 n (i + 1) rest
            | Except.error e => Except.error e := rfl
      rw [h0, haddp]
    have hmap2 : ({ b with addedPlayers :=
          b.addedPlayers ++ [(n + i, PlayerType.Spectator a)] }).addedPlayers.map Prod.fst
        = List.range (n + (i + 1)) := by
      simp only [List.map_append, hmap]
      rw [show n + (i + 1) = (n + i) + 1 by omega, List.range_succ]
      rfl
    obtain ⟨b3, hrun, hm3, hn3⟩ :=
      ih { b with addedPlayers := b.addedPlayers ++ [(n + i, PlayerType.Spectator a)] }
        n (i + 1) hmap2 hn
    refine ⟨b3, hstep.trans hrun, ?_, hn3⟩
    rw [hm3]
    have harith : n + (i + 1) + rest.length = n + i + (a :: rest).length := by
      simp only [List.length_cons]
      omega
    exact congrArg List.range harith

/-- C10: Player handles form a dense sequence: for a session with n
players, local and remote players are added with handles 0..n−1 in list
order, and the k-th spectator is added with handle n+k; the registered
handle list in registration order is exactly 0..n+k−1 — every handle is the
index at which the participant was registered — and the configured player
count is preserved. -/
theorem player_handles_dense (players : List PlayerArg) (spectators : List Nat) :
    (buildExampleSession players spectators).map (fun b => b.addedPlayers.map Prod.fst)
        = Except.ok (List.range (players.length + spectators.length)) ∧
      (buildExampleSession players spectators).map (fun b => b.numPlayers)
        = Except.ok players.length := by
  obtain ⟨b2, hrun, hm2, hn2⟩ := addPlayersFrom_ok players
    { numPlayers := players.length, addedPlayers := [],
      maxPrediction := p2pMaxPredictionWindow, inputDelay := p2pInputDelay }
    0 rfl (Nat.zero_add _)
  obtain ⟨b3, hrun3, hm3, hn3⟩ := addSpectatorsFrom_ok spectators b2 players.length 0 hm2 hn2
  have hbuild : buildExampleSession players spectators = Except.ok b3 := by
    unfold buildExampleSession
    rw [hrun]
    exact hrun3
  constructor
  · rw [hbuild]
    simp only [Except.map]
    rw [hm3]
    rfl
  · rw [hbuild]
    simp only [Except.map]
    rw [hn3]
